import Mathlib

/-!
# Verification of the C-Star orchestration core

A shallow embedding of the orchestration engine of the C-Star repository
(`src/cstar/orchestration/orchestrator.py`, `transforms.py`, `models.py`),
together with theorems settling the frozen claims about it.

Conventions of the embedding:
* Python exceptions are modeled with `Except PyExc`; each Python `raise`
  becomes `.error`, a `try/except E` becomes a `match` on the error kind.
* Python `dict`s are modeled as association lists with an overwriting
  insert (`alSet`); key lookup is `List.lookup`.
* Python string methods (`strip`, `upper`, `split`) are modeled by
  executable functions over the character list of a `String` (`pyStrip`,
  `pyUpper`, `pySplit`), so that concrete witnesses can be evaluated by
  the kernel. `pyUpper` is the ASCII case map, which agrees with Python
  `str.upper` on the ASCII inputs these code paths receive.
* The `Task.state_bag` string-to-string map of the source stores
  stringified integers under fixed keys (`_Cmd`, `_ProcessIdentifier`,
  `_CreateTime`, `_ReturnCode`); it is modeled by typed optional fields
  (the `str`/`int` round-trip is the identity on the stored values).
* OS process creation timestamps are integers (as in
  `ProcessHandle.created_on : int`).
-/

namespace CStar

/-- Python exceptions relevant to the modeled code paths. -/
inductive PyExc where
  | valueError (msg : String)
  | runtimeError (msg : String)
  | keyError (key : String)
  | indexError
  | attributeError (msg : String)
  | networkxError (msg : String)
  | typeError (msg : String)
  deriving DecidableEq, Repr

/-- Association-list update with Python `dict` semantics: an existing key
keeps its position and gets the new value, a new key is appended. -/
def alSet {β : Type} : List (String × β) → String → β → List (String × β)
  | [], k, v => [(k, v)]
  | (k', v') :: rest, k, v =>
      if k' = k then (k, v) :: rest else (k', v') :: alSet rest k v

/-- The whitespace characters stripped by Python `str.strip()`. -/
def pyIsSpace (c : Char) : Bool :=
  c = ' ' ∨ c = '\t' ∨ c = '\n' ∨ c = '\x0d' ∨ c = '\x0b' ∨ c = '\x0c'

/-- Python `str.strip()` (default whitespace). -/
def pyStrip (s : String) : String :=
  ⟨((s.data.dropWhile pyIsSpace).reverse.dropWhile pyIsSpace).reverse⟩

/-- Python `str.upper()` restricted to the ASCII case map. -/
def pyUpper (s : String) : String :=
  ⟨s.data.map Char.toUpper⟩

/-- Splitting a character list on a separator character; no runs are
collapsed, matching Python `str.split(sep)` with an explicit separator. -/
def pySplitChars (sep : Char) : List Char → List (List Char)
  | [] => [[]]
  | c :: rest =>
      let groups := pySplitChars sep rest
      if c = sep then [] :: groups
      else
        match groups with
        | [] => [[c]]
        | g :: gs => (c :: g) :: gs

/-- Python `str.split(sep)` with an explicit one-character separator. -/
def pySplit (sep : Char) (s : String) : List String :=
  (pySplitChars sep s.data).map (⟨·⟩)

/-- Modelled from the spec: the `TaskStatus` enumeration
(`Unknown < Waiting < Ready < Active < Done < Aborted < Failed`).
Its defining module is a version of `cstar/orchestration/models.py` that is
not present under `src/` (the copy under `src/` predates it); every use
site in `src/` imports it from that module and compares values with the
integer order above. -/
inductive TaskStatus where
  | Unknown | Waiting | Ready | Active | Done | Aborted | Failed
  deriving DecidableEq, Repr

/-- The integer rank backing the `TaskStatus` total order. -/
def TaskStatus.toNat : TaskStatus → Nat
  | .Unknown => 0
  | .Waiting => 1
  | .Ready => 2
  | .Active => 3
  | .Done => 4
  | .Aborted => 5
  | .Failed => 6

/-- `a < b` on `TaskStatus` (the order used by `status > TaskStatus.Active`
and friends in the source). -/
def TaskStatus.lt (a b : TaskStatus) : Bool := a.toNat < b.toNat

/-- `SlurmJobStatus.is_terminated` (orchestrator.py lines 592-600):
membership of the state in `{Done, Aborted, Failed}`. -/
def SlurmJobStatus.is_terminated (state : TaskStatus) : Bool :=
  state = TaskStatus.Done ∨ state = TaskStatus.Aborted ∨ state = TaskStatus.Failed

/-- `SlurmJobStatus.map_status` (orchestrator.py lines 611-639): raise on
empty or whitespace-only input, otherwise look the upper-cased raw status
up in the five-entry `sacct` table, defaulting to `Unknown`. -/
def SlurmJobStatus.map_status (raw_status : String) : Except PyExc TaskStatus :=
  if pyStrip raw_status = "" then
    .error (.valueError "Unable to map an empty raw status")
  else
    let key := pyUpper raw_status
    if key = "PENDING" then .ok .Waiting
    else if key = "RUNNING" then .ok .Active
    else if key = "COMPLETED" then .ok .Done
    else if key = "CANCELLED" then .ok .Aborted
    else if key = "FAILED" then .ok .Failed
    else .ok .Unknown

/-- Truthiness of an optional Python int (`if not self.pid`, `if task.rc`):
`None` and `0` are falsy. -/
def pyTruthyOptInt : Option Int → Bool
  | none => false
  | some n => n ≠ 0

/-- `Step` (models.py lines 366-406). Override-map values (`str | int` in
the source) are modeled as strings; the orchestrator treats them opaquely. -/
structure Step where
  name : String
  application : String
  blueprint : String
  depends_on : List String := []
  blueprint_overrides : List (String × String) := []
  compute_overrides : List (String × String) := []
  workflow_overrides : List (String × String) := []
  deriving DecidableEq, Repr

/-- `ProcessHandle` (orchestrator.py lines 29-40); the `uuid.UUID` key is
modeled as a `Nat`. -/
structure ProcessHandle where
  pid : Int
  created_on : Int
  name : String
  key : Nat
  deriving DecidableEq, Repr

/-- A live OS process as seen through `psutil`: its pid, creation time,
and the pids of its recursive descendants (`children(recursive=True)`). -/
structure OsProc where
  pid : Int
  createTime : Int
  children : List Int := []
  deriving DecidableEq, Repr

/-- `psutil.Process(pid)` resolution against the set of live processes. -/
def lookupProc (env : List OsProc) (pid : Int) : Option OsProc :=
  env.find? (fun p => p.pid = pid)

/-- A `subprocess.Popen` handle: whether the underlying OS process has
exited, the code it exits with, and the `returncode` attribute that
`Popen` caches once a `poll`/`wait` observes the exit. -/
structure PopenHandle where
  exited : Bool
  exitCode : Int
  returncode : Option Int := none
  deriving DecidableEq, Repr

/-- `Popen.poll()`: records the return code once the process has exited;
a previously recorded value is kept. Never blocks. -/
def PopenHandle.poll (p : PopenHandle) : PopenHandle :=
  if p.returncode ≠ none then p
  else if p.exited then { p with returncode := some p.exitCode }
  else p

/-- `Popen.wait(timeout=1)`: like `poll` when the process has exited;
`none` models the `TimeoutExpired` exception when it has not. The model
does not propagate a kill issued through a separate `psutil` handle into
`exited`; the scenarios proved below only exercise `wait` on processes
that exited beforehand. -/
def PopenHandle.wait (p : PopenHandle) : Option PopenHandle :=
  if p.returncode ≠ none then some p
  else if p.exited then some { p with returncode := some p.exitCode }
  else none

/-- `Task.source` (`Step | ProcessHandle`, orchestrator.py line 46). -/
inductive TaskSource where
  | step (s : Step)
  | handle (h : ProcessHandle)
  deriving DecidableEq, Repr

/-- `Task.name`: the name of the underlying step or process handle. -/
def TaskSource.name : TaskSource → String
  | .step s => s.name
  | .handle h => h.name

/-- `Task` (orchestrator.py lines 43-248). The string-valued `state_bag`
entries are modeled as typed optional fields (`bag*`); `exception` is the
extra attribute carried by `FailTask` instances (`None` on plain tasks). -/
structure Task where
  source : TaskSource
  status : TaskStatus
  process : Option PopenHandle := none
  bagCmd : Option String := none
  bagPid : Option Int := none
  bagCreateTime : Option Int := none
  bagRc : Option Int := none
  task_id : Nat
  exception : Option String := none
  deriving DecidableEq, Repr

/-- `Task.name` property (line 86-92). -/
def Task.name (tk : Task) : String := tk.source.name

/-- The `Task.rc` property (lines 124-135): returns the cached
`_ReturnCode` entry. The source's branch that would copy
`process.returncode` into the bag is guarded by
`self.process.returncode is None` and therefore never writes (it reads
`None` and skips the write), so the property is exactly the cached value. -/
def Task.rc (tk : Task) : Option Int := tk.bagRc

/-- `Task.__init__` (lines 59-84): status starts at `Waiting` with an
empty state bag; a `ProcessHandle` source resolves the pid via
`psutil.Process` (raising `NoSuchProcess` when it is not live), adopts the
handle's key as `task_id` and records `created_on` and `pid` in the bag.
`freshId` stands for the `uuid.uuid1()` drawn for a `Step` source. -/
def Task.init (env : List OsProc) (source : TaskSource) (freshId : Nat) :
    Except PyExc Task :=
  match source with
  | .step _ => .ok { source := source, status := .Waiting, task_id := freshId }
  | .handle h =>
      match lookupProc env h.pid with
      | none => .error (.runtimeError "psutil.NoSuchProcess")
      | some _ =>
          .ok { source := source, status := .Waiting, task_id := h.key,
                bagPid := some h.pid, bagCreateTime := some h.created_on }

/-- `FailTask.__init__` (lines 251-262): calls `Task.__init__` — which
sets `status = Waiting` — and stores the error message. The class-level
`status: TaskStatus = Field(default=TaskStatus.Failed, ...)` annotation
sits on a plain (non-pydantic) class, so it is only a class attribute of
type `FieldInfo`; the instance attribute written by `Task.__init__`
shadows it and no instance ever carries `Failed` from construction. -/
def FailTask.init (env : List OsProc) (source : TaskSource)
    (exception : Option String) (freshId : Nat) : Except PyExc Task :=
  (Task.init env source freshId).map (fun tk => { tk with exception := exception })

/-- `Task.query` (lines 224-238): returns the current status unchanged
unless the pid is truthy, a process handle exists, and `Popen.returncode`
is already non-null; only then does it poll, cache the return code, and
set `Done`/`Failed` according to `returncode == 0`. -/
def Task.query (tk : Task) : Task × TaskStatus :=
  match tk.process with
  | none => (tk, tk.status)
  | some pr =>
      if ¬ pyTruthyOptInt tk.bagPid ∨ pr.returncode = none then (tk, tk.status)
      else
        let pr := pr.poll
        let tk := { tk with process := some pr }
        let tk :=
          match pr.returncode with
          | some c => { tk with bagRc := some c }
          | none => tk
        if pr.returncode = some 0 then ({ tk with status := .Done }, .Done)
        else ({ tk with status := .Failed }, .Failed)

/-- `Task.cancel` (lines 177-222). Returns the updated task together with
the list of pids that were sent a kill signal, in signalling order
(descendants first, then the root). The recycled-pid branch sets
`status = Done` and prints "not stopping" but has no `return`, so control
falls through to the kill loop. -/
def Task.cancel (env : List OsProc) (tk : Task) : Task × List Int :=
  if ¬ pyTruthyOptInt tk.bagPid ∨ tk.process = none then (tk, [])
  else
    match tk.process with
    | none => (tk, [])
    | some pr =>
        if pr.returncode ≠ none then (tk, [])
        else
          let tk := (Task.query tk).1
          match lookupProc env (tk.bagPid.getD 0) with
          | none =>
              -- except psutil.NoSuchProcess: process already stopped
              ((Task.query tk).1, [])
          | some proc =>
              let tk :=
                if some proc.createTime ≠ tk.bagCreateTime then
                  { tk with status := .Done }
                else tk
              -- (missing return) kill every descendant, then the root
              let killed := proc.children ++ [proc.pid]
              match tk.process with
              | none => (tk, killed)
              | some pr2 =>
                  match pr2.wait with
                  | none => (tk, killed)  -- TimeoutExpired, caught by `except Exception`
                  | some pr3 =>
                      let tk := { tk with process := some pr3 }
                      let tk := (Task.query tk).1
                      if tk.rc ≠ none ∧ tk.rc = some 0 then (tk, killed)
                      else ({ tk with status := .Aborted }, killed)

/-- The fields of a workplan the orchestration engine reads (`name` and
`steps`; models.py lines 409-439). -/
structure Workplan where
  name : String
  description : String := ""
  steps : List Step
  deriving DecidableEq, Repr

/-- A `networkx.DiGraph` as used by the planner: named nodes carrying an
optional `action` attribute, and a duplicate-free directed edge list. -/
structure DiGraph where
  nodes : List (String × Option String) := []
  edges : List (String × String) := []
  deriving DecidableEq, Repr

/-- Node membership. -/
def DiGraph.hasNode (g : DiGraph) (n : String) : Bool :=
  g.nodes.any (·.1 = n)

/-- Insert a node without attributes when absent (implicit node creation
during edge insertion). -/
def DiGraph.ensureNode (g : DiGraph) (n : String) : DiGraph :=
  if g.hasNode n then g else { g with nodes := g.nodes ++ [(n, none)] }

/-- Set the `action` attribute of one node. -/
def DiGraph.setAttr (g : DiGraph) (n a : String) : DiGraph :=
  { g with nodes := g.nodes.map (fun p => if p.1 = n then (p.1, some a) else p) }

/-- `nx.set_node_attributes(graph, value, "action")`: one attribute value
for every node. -/
def DiGraph.setAllAttrs (g : DiGraph) (a : String) : DiGraph :=
  { g with nodes := g.nodes.map (fun p => (p.1, some a)) }

/-- `add_edge`/`add_edges_from`: endpoints are created implicitly and
duplicate edges are coalesced. -/
def DiGraph.addEdge (g : DiGraph) (u v : String) : DiGraph :=
  let g := (g.ensureNode u).ensureNode v
  if (u, v) ∈ g.edges then g else { g with edges := g.edges ++ [(u, v)] }

/-- `add_node(n, action=a)`: create or update the node with the attribute. -/
def DiGraph.addNodeWithAttr (g : DiGraph) (n a : String) : DiGraph :=
  (g.ensureNode n).setAttr n a

/-- `in_degree`. -/
def DiGraph.inDegree (g : DiGraph) (n : String) : Nat :=
  (g.edges.filter (·.2 = n)).length

/-- `out_degree`. -/
def DiGraph.outDegree (g : DiGraph) (n : String) : Nat :=
  (g.edges.filter (·.1 = n)).length

/-- `remove_node`: drops the node and all incident edges; removing an
absent node raises `NetworkXError`. -/
def DiGraph.removeNode (g : DiGraph) (n : String) : Except PyExc DiGraph :=
  if g.hasNode n then
    .ok { nodes := g.nodes.filter (·.1 ≠ n),
          edges := g.edges.filter (fun e => e.1 ≠ n ∧ e.2 ≠ n) }
  else .error (.networkxError ("The node " ++ n ++ " is not in the digraph."))

/-- `nx.DiGraph(dict_of_lists)`: each key maps to its successor list. -/
def DiGraph.fromAdjacency (adj : List (String × List String)) : DiGraph :=
  adj.foldl (fun g kv => kv.2.foldl (fun g v => g.addEdge kv.1 v) (g.ensureNode kv.1))
    { }

/-- `GraphPlanner.START_NODE`. -/
def GraphPlanner.START_NODE : String := "_cstar_start_node"

/-- `GraphPlanner.TERMINAL_NODE`. -/
def GraphPlanner.TERMINAL_NODE : String := "_cstar_term_node"

/-- `GraphPlanner._add_marker_nodes` (orchestrator.py lines 929-981): add
(or re-attribute) the `START`/`TERM` control nodes, connect `START` to
every node with in-degree 0, then connect every node left with
out-degree 0 to `TERM`. -/
def GraphPlanner.addMarkerNodes (g : DiGraph) : DiGraph :=
  let g := g.addNodeWithAttr GraphPlanner.START_NODE "start"
  let g := g.addNodeWithAttr GraphPlanner.TERMINAL_NODE "term"
  let noDepEdges := (g.nodes.filter (fun p =>
      g.inDegree p.1 = 0 ∧
        p.1 ∉ [GraphPlanner.START_NODE, GraphPlanner.TERMINAL_NODE])).map
    (fun p => (GraphPlanner.START_NODE, p.1))
  let g := noDepEdges.foldl (fun g e => g.addEdge e.1 e.2) g
  let terminalEdges := (g.nodes.filter (fun p =>
      g.outDegree p.1 = 0 ∧ p.1 ≠ GraphPlanner.TERMINAL_NODE)).map
    (fun p => (p.1, GraphPlanner.TERMINAL_NODE))
  terminalEdges.foldl (fun g e => g.addEdge e.1 e.2) g

/-- `GraphPlanner` instance state (orchestrator.py lines 821-894). -/
structure GraphPlanner where
  workplan : Workplan
  step_map : List (String × Step)
  dep_map : List (String × List String)
  name_map : List (String × String)
  graph : DiGraph
  deriving DecidableEq, Repr

/-- `GraphPlanner.__init__` on the workplan path
(`_initialize_from_plan` + `_workplan_to_graph`, lines 871-878/983-990):
caches the step/dependency/name maps, builds the graph from the
dependency adjacency, attributes every node as a `task`, and adds the
marker nodes. -/
def GraphPlanner.initFromPlan (wp : Workplan) : GraphPlanner :=
  let dep_map := wp.steps.map (fun s => (s.name, s.depends_on))
  { workplan := wp,
    step_map := wp.steps.map (fun s => (s.name, s)),
    dep_map := dep_map,
    name_map := wp.steps.map (fun s => (s.name, s.name)) ++
      [(GraphPlanner.START_NODE, "start"), (GraphPlanner.TERMINAL_NODE, "end")],
    graph := GraphPlanner.addMarkerNodes
      ((DiGraph.fromAdjacency dep_map).setAllAttrs "task") }

/-- `GraphPlanner.__next__` (lines 912-922): returns the head of
`workplan.steps` whenever that list is non-empty (a pydantic model is
always truthy), regardless of the graph or of prior removals. -/
def GraphPlanner.next (p : GraphPlanner) : Option Step :=
  match p.workplan.steps with
  | [] => none
  | s :: _ => some s

/-- `GraphPlanner.__iter__` (lines 924-927): iterates `workplan.steps`. -/
def GraphPlanner.iter (p : GraphPlanner) : List Step :=
  p.workplan.steps

/-- `GraphPlanner.remove` (lines 1092-1093): removes the node from the
graph (and only from the graph). -/
def GraphPlanner.remove (p : GraphPlanner) (step : Step) : Except PyExc GraphPlanner :=
  (p.graph.removeNode step.name).map (fun g => { p with graph := g })

/-- `SerialPlanner` instance state (orchestrator.py lines 1177-1252):
a workplan and the linear `_plan` that `_create_plan` derives by a
breadth-first traversal of the `GraphPlanner` graph. -/
structure SerialPlanner where
  workplan : Workplan
  plan : List Step
  deriving DecidableEq, Repr

/-- `SerialPlanner.__next__` (lines 1235-1244): head of `_plan`, `none`
once the plan is empty. -/
def SerialPlanner.next (p : SerialPlanner) : Option Step :=
  match p.plan with
  | [] => none
  | s :: _ => some s

/-- `SerialPlanner.remove` (lines 1223-1233): `list.index` raises
`ValueError` when the step is absent, otherwise the entry is popped (the
`index == -1` branch of the source is dead code: `index` never returns
-1). -/
def SerialPlanner.remove (p : SerialPlanner) (step : Step) : Except PyExc SerialPlanner :=
  match p.plan.findIdx? (· = step) with
  | none => .error (.valueError "step is not in list")
  | some i => .ok { p with plan := p.plan.eraseIdx i }

/-- The outcome of `Popen(...)` inside `Task.start`: a pid and `psutil`
creation time on success (with the eventual fate of the spawned OS
process: whether and how it exits), or the `SubprocessError` that
`start` catches. -/
inductive SpawnOutcome where
  | ok (pid : Int) (createTime : Int) (exited : Bool) (exitCode : Int)
  | subprocessError (msg : String)
  deriving DecidableEq, Repr

/-- `" ".join(cmd)` (the `Task.cmd` setter). -/
def joinSpace : List String → String
  | [] => ""
  | [x] => x
  | x :: rest => x ++ " " ++ joinSpace rest

/-- `Task.start` (orchestrator.py lines 141-175): set `Ready`, reject
`ProcessHandle` sources, record the adapted command, then spawn. On spawn
success the pid and creation time are recorded and the status becomes
`Active`; a `SubprocessError` is caught and sets `Failed`. Command
adaptation (`StepToCommandAdapter.adapt`) is passed in as `adaptResult`:
it reads the application registry of a models module newer than the copy
under `src/`, so its outcome is an environment input here; a raised
`ValueError` propagates uncaught, as in the source. -/
def Task.start (tk : Task) (adaptResult : Except PyExc (List String))
    (spawn : SpawnOutcome) : Except PyExc Task :=
  let tk := { tk with status := TaskStatus.Ready }
  match tk.source with
  | .handle _ => .error (.runtimeError "This process was started remotely.")
  | .step _ =>
      match adaptResult with
      | .error e => .error e
      | .ok cmd =>
          let tk := { tk with bagCmd := some (joinSpace cmd) }
          match spawn with
          | .ok pid ct exited exitCode =>
              .ok { tk with
                    process := some { exited := exited, exitCode := exitCode },
                    bagPid := some pid, bagCreateTime := some ct,
                    status := TaskStatus.Active }
          | .subprocessError _ => .ok { tk with status := TaskStatus.Failed }

/-- `Launcher` state (orchestrator.py lines 383-394): the task table and
the `check_counts` scaffolding used by `report_all`. -/
structure Launcher where
  tasks : List (String × Task) := []
  check_counts : List (String × Nat) := []
  deriving DecidableEq, Repr

/-- `Launcher._create_task` (lines 401-418): build a `Task` from the step
and start it. -/
def Launcher._create_task (step : Step) (adaptResult : Except PyExc (List String))
    (spawn : SpawnOutcome) (freshId : Nat) : Except PyExc Task := do
  let tk ← Task.init [] (.step step) freshId
  Task.start tk adaptResult spawn

/-- The per-step loop of `Launcher.launch` (lines 429-444), accumulating
the `tasks` dict: after `_create_task`, the status is overwritten with
`Failed if task.rc else Active` (and `task.rc` is `None` right after
`start`, so even a failed spawn ends up `Active` here). -/
def Launcher.launchLoop (adaptOf : Step → Except PyExc (List String))
    (spawnOf : Step → SpawnOutcome) (freshIdOf : Step → Nat) :
    List Step → List (String × Task) → Except PyExc (List (String × Task))
  | [], acc => .ok acc
  | step :: rest, acc => do
      let tk ← Launcher._create_task step (adaptOf step) (spawnOf step) (freshIdOf step)
      let tk := { tk with
        status := if pyTruthyOptInt tk.rc then TaskStatus.Failed else TaskStatus.Active }
      Launcher.launchLoop adaptOf spawnOf freshIdOf rest (alSet acc step.name tk)

/-- `Launcher.launch` (lines 429-444): run the loop, merge the new tasks
into the table (`self.tasks.update(tasks)`), and return them. -/
def Launcher.launch (l : Launcher) (steps : List Step)
    (adaptOf : Step → Except PyExc (List String)) (spawnOf : Step → SpawnOutcome)
    (freshIdOf : Step → Nat) : Except PyExc (Launcher × List (String × Task)) := do
  let newTasks ← Launcher.launchLoop adaptOf spawnOf freshIdOf steps []
  .ok ({ l with tasks := newTasks.foldl (fun t kv => alSet t kv.1 kv.2) l.tasks },
       newTasks)

/-- `Launcher.report_all` (lines 457-485): per queried name, the tracked
task's status while its check count is below the test-only threshold of
4, `Done` at or above it, and `Unknown` for untracked names; afterwards
every tracked task's check count is incremented. (The `defaultdict`
insertion of a zero count on read is not observable through the
default-0 lookup used here.) -/
def Launcher.report_all (l : Launcher) (names : List String) :
    Launcher × List (String × TaskStatus) :=
  let statuses := names.map (fun n =>
    (n, match l.tasks.lookup n with
        | some tk =>
            if (l.check_counts.lookup n).getD 0 < 4 then tk.status
            else TaskStatus.Done
        | none => TaskStatus.Unknown))
  let counts := l.tasks.foldl
    (fun cs kv => alSet cs kv.1 (((cs.lookup kv.1).getD 0) + 1)) l.check_counts
  ({ l with check_counts := counts }, statuses)

/-- `Launcher.report` (lines 446-455): `report_all` on the single item,
indexed by its name (always present there, so the `Unknown` fallback of
this model is unreachable). -/
def Launcher.report (l : Launcher) (name : String) : Launcher × TaskStatus :=
  let (l', stats) := l.report_all [name]
  (l', (stats.lookup name).getD TaskStatus.Unknown)

/-- `Orchestrator` state (orchestrator.py lines 1255-1278). -/
structure Orchestrator where
  planner : GraphPlanner
  launcher : Launcher
  task_lookup : List (String × Task) := []
  task_archive : List (String × Task) := []
  deriving DecidableEq, Repr

/-- The tail of `Orchestrator._start` after the `try/except` (lines
1290-1299): `if not task` raises — and on the success path of the `try`
the local `task` was never assigned, so it is still `None` there; a task
beyond `Active` is archived and a `RuntimeError` raised; otherwise the
task is returned. State is returned alongside the `Except` because a
Python exception does not roll back prior mutations. -/
def Orchestrator.startTail (o : Orchestrator) (step : Step) (task : Option Task) :
    Orchestrator × Except PyExc Task :=
  match task with
  | none => (o, .error (.runtimeError ("Starting task `" ++ step.name ++ "` failed.")))
  | some tk =>
      if TaskStatus.lt .Active tk.status then
        ({ o with task_archive := alSet o.task_archive step.name tk },
         .error (.runtimeError ("Unable to launch task for step `" ++ step.name ++ "`")))
      else (o, .ok tk)

/-- `Orchestrator._start` (lines 1280-1299): `task: Task | None = None`;
the `try` launches the step and records the new task in `task_lookup`
without ever assigning `task`; `except RuntimeError` builds a `FailTask`
assigned to `task`; then `startTail` runs the `if not task` /
`if task.status > Active` checks. -/
def Orchestrator._start (o : Orchestrator) (adaptOf : Step → Except PyExc (List String))
    (spawnOf : Step → SpawnOutcome) (freshIdOf : Step → Nat) (step : Step) :
    Orchestrator × Except PyExc Task :=
  match Launcher.launch o.launcher [step] adaptOf spawnOf freshIdOf with
  | .ok (l', newTasks) =>
      match newTasks.lookup step.name with
      | none => ({ o with launcher := l' }, .error (.keyError step.name))
      | some newTask =>
          Orchestrator.startTail
            { o with launcher := l',
                     task_lookup := alSet o.task_lookup step.name newTask }
            step none
  | .error (.runtimeError msg) =>
      match FailTask.init [] (.step step) (some msg) (freshIdOf step) with
      | .ok ftask => Orchestrator.startTail o step (some ftask)
      | .error e => (o, .error e)
  | .error e => (o, .error e)

/-- Python `dict.pop(key)`. -/
def alRemove {β : Type} (l : List (String × β)) (k : String) : List (String × β) :=
  l.filter (·.1 ≠ k)

/-- `Orchestrator.run_step` on a `Step` argument (lines 1301-1323): start
the step when it has no `task_lookup` record and return the new task's
status; otherwise reconcile with `Launcher.report`, record a changed
status, and on a terminal status remove the step from the planner and
move the task from `task_lookup` to `task_archive`. (The in-place
`task_lookup[name].status = ...` write also reaches the launcher's table
through the shared object in Python; that aliasing is not modeled and no
theorem below reads the launcher table after this write.) -/
def Orchestrator.run_step (o : Orchestrator) (adaptOf : Step → Except PyExc (List String))
    (spawnOf : Step → SpawnOutcome) (freshIdOf : Step → Nat) (step : Step) :
    Orchestrator × Except PyExc TaskStatus :=
  match o.task_lookup.lookup step.name with
  | none =>
      let (o, r) := Orchestrator._start o adaptOf spawnOf freshIdOf step
      (o, r.map Task.status)
  | some task =>
      let (l', current_status) := Launcher.report o.launcher step.name
      let o := { o with launcher := l' }
      let o :=
        if task.status ≠ current_status then
          { o with task_lookup :=
              alSet o.task_lookup step.name { task with status := current_status } }
        else o
      if TaskStatus.lt .Active current_status then
        match o.planner.remove step with
        | .error e => (o, .error e)
        | .ok p' =>
            let o := { o with planner := p' }
            match o.task_lookup.lookup task.source.name with
            | none => (o, .error (.keyError task.source.name))
            | some tk =>
                ({ o with task_lookup := alRemove o.task_lookup task.source.name,
                          task_archive := alSet o.task_archive task.source.name tk },
                 .ok current_status)
      else (o, .ok current_status)

/-- The line parsing of `SlurmLauncher._retrieve_status` (orchestrator.py
lines 718-721): split the `sacct` stdout into lines, drop blank ones,
strip and split each on `,`, and keep exactly the 3-field
`(job id, raw state, job name)` tuples. -/
def parseSacct (stdout : String) : List (String × String × String) :=
  (((pySplit '\n' stdout).filter (fun x => pyStrip x ≠ "")).map
      (fun x => pySplit ',' (pyStrip x))).filterMap
    (fun fields =>
      match fields with
      | [a, b, c] => some (a, b, c)
      | _ => none)

/-- `SlurmLauncher._retrieve_status` (lines 678-727): reject a missing or
blank `job_id`, otherwise parse the stdout of the `sacct` invocation
(passed in as `stdout`; the subprocess run itself is an environment
input). -/
def SlurmLauncher._retrieve_status (job_id : Option String) (stdout : String) :
    Except PyExc (List (String × String × String)) :=
  match job_id with
  | none => .error (.valueError "Invalid slurm_job_id provided")
  | some jid =>
      if pyStrip jid = "" then .error (.valueError "Invalid slurm_job_id provided")
      else .ok (parseSacct stdout)

/-- The result-building loop of `SlurmLauncher._query_status` (lines
744-747): `results[job_name] = map_status(raw_status)` per parsed line,
propagating the `ValueError` that `map_status` raises on an empty raw
state. -/
def SlurmLauncher.buildResults :
    List (String × String × String) → List (String × TaskStatus) →
      Except PyExc (List (String × TaskStatus))
  | [], acc => .ok acc
  | (_jid, raw, name) :: rest, acc =>
      match SlurmJobStatus.map_status raw with
      | .error e => .error e
      | .ok status => SlurmLauncher.buildResults rest (alSet acc name status)

/-- The filtering dict comprehension of `_query_status` (line 750):
`{task_id: results[task_id] for task_id in task_ids}` — a requested name
absent from `results` raises `KeyError`. -/
def SlurmLauncher.filterResults (results : List (String × TaskStatus)) :
    List String → List (String × TaskStatus) →
      Except PyExc (List (String × TaskStatus))
  | [], acc => .ok acc
  | tid :: rest, acc =>
      match results.lookup tid with
      | none => .error (.keyError tid)
      | some st => SlurmLauncher.filterResults results rest (alSet acc tid st)

/-- `SlurmLauncher._query_status` (lines 729-752): parse the backend
output into a name-to-status map and, when `task_ids` is non-empty,
rebuild the map over exactly the requested ids. -/
def SlurmLauncher._query_status (job_id : Option String) (stdout : String)
    (task_ids : List String) : Except PyExc (List (String × TaskStatus)) :=
  match SlurmLauncher._retrieve_status job_id stdout with
  | .error e => .error e
  | .ok status_lines =>
      match SlurmLauncher.buildResults status_lines [] with
      | .error e => .error e
      | .ok results =>
          if task_ids = [] then .ok results
          else SlurmLauncher.filterResults results task_ids []

/-- A Python `datetime` restricted to the fields the step splitter
touches. -/
structure PyDateTime where
  year : Nat
  month : Nat
  day : Nat
  hour : Nat := 0
  minute : Nat := 0
  second : Nat := 0
  deriving DecidableEq, Repr

/-- The number realizing `datetime`'s field-lexicographic comparison:
injective and order-faithful on in-range field values. -/
def PyDateTime.key (d : PyDateTime) : Nat :=
  ((((d.year * 13 + d.month) * 32 + d.day) * 24 + d.hour) * 60 + d.minute) * 60
    + d.second

/-- `a < b` on datetimes. -/
abbrev PyDateTime.lt (a b : PyDateTime) : Prop := a.key < b.key

/-- `a <= b` on datetimes. -/
abbrev PyDateTime.le (a b : PyDateTime) : Prop := a.key ≤ b.key

/-- In-range field values of a real `datetime`. -/
abbrev PyDateTime.Valid (d : PyDateTime) : Prop :=
  1 ≤ d.month ∧ d.month ≤ 12 ∧ 1 ≤ d.day ∧ d.day ≤ 31 ∧
    d.hour ≤ 23 ∧ d.minute ≤ 59 ∧ d.second ≤ 59

/-- Midnight on the first of some month. -/
abbrev PyDateTime.isMonthStart (d : PyDateTime) : Prop :=
  1 ≤ d.month ∧ d.month ≤ 12 ∧ d.day = 1 ∧ d.hour = 0 ∧ d.minute = 0 ∧ d.second = 0

/-- `datetime(start_date.year, start_date.month, 1)` (transforms.py
line 66). -/
def monthStart (d : PyDateTime) : PyDateTime :=
  { year := d.year, month := d.month, day := 1 }

/-- The `month_end` computation of the loop body (transforms.py lines
72-82): the first of the next month, rolling December into January. -/
def monthSucc (d : PyDateTime) : PyDateTime :=
  if d.month = 12 then { year := d.year + 1, month := 1, day := 1 }
  else { year := d.year, month := d.month + 1, day := 1 }

/-- Month counter used to measure the loop. -/
def monthsIdx (d : PyDateTime) : Nat := d.year * 12 + d.month

/-- The `while current_date < end_date` loop of `get_time_slices`
(transforms.py lines 69-85), fueled; `get_time_slices` passes one unit of
fuel per month between the cursor and the end date plus one, and
`slicesLoop_fuel_stable` below shows the loop then always stops by its
guard, so the fueled function agrees with the unbounded Python loop. -/
def slicesLoop (endD : PyDateTime) : Nat → PyDateTime → List (PyDateTime × PyDateTime)
  | 0, _ => []
  | fuel + 1, cur =>
      if PyDateTime.lt cur endD then
        (cur, monthSucc cur) :: slicesLoop endD fuel (monthSucc cur)
      else []

/-- In-place update of the last element (`time_slices[-1] = ...`). -/
def modifyLast {α : Type} (f : α → α) : List α → List α
  | [] => []
  | [x] => [f x]
  | x :: y :: rest => x :: modifyLast f (y :: rest)

/-- The last-slice clip of `get_time_slices` (transforms.py lines 91-93):
`if end_date < time_slices[-1][1]: time_slices[-1] = (.., end_date)`. -/
def clipEnd (end_date : PyDateTime) (sl : PyDateTime × PyDateTime) :
    PyDateTime × PyDateTime :=
  if PyDateTime.lt end_date sl.2 then (sl.1, end_date) else sl

/-- `get_time_slices` (transforms.py lines 62-95): run the month loop
from the first of the start date's month, then clip the first slice's
start to `start_date` and the last slice's end to `end_date` when they
differ. Indexing `time_slices[0]` of an empty result raises `IndexError`
(the source reaches that only when `end_date <= start_date`, which
`split` rejects beforehand). -/
def get_time_slices (start_date end_date : PyDateTime) :
    Except PyExc (List (PyDateTime × PyDateTime)) :=
  match slicesLoop end_date
      (monthsIdx end_date + 1 - monthsIdx (monthStart start_date))
      (monthStart start_date) with
  | [] => .error .indexError
  | s0 :: rest =>
      let s0' := if PyDateTime.lt s0.1 start_date then (start_date, s0.2) else s0
      .ok (modifyLast (clipEnd end_date) (s0' :: rest))

/-- `cstar.orchestration.utils.slugify`: casefold, drop the non-word
characters, then replace whitespace runs by `-` (a no-op: the previous
substitution already removed all whitespace). The `ValueError` on empty
input cannot trigger in the splitter, whose generated names always
contain `_`. -/
def pySlugify (s : String) : String :=
  ⟨(s.data.map Char.toLower).filter (fun c => c.isAlphanum || c = '_')⟩

/-- `(Path(root) / name).as_posix()` for the non-empty roots used here. -/
def pathJoin (a b : String) : String :=
  if a = "" then b else a ++ "/" ++ b

/-- Zero-padded two-digit field (`strftime` `%m`, `%d`, `%H`, `%M`, `%S`). -/
def pad2 (n : Nat) : String :=
  if n < 10 then "0" ++ toString n else toString n

/-- Zero-padded four-digit year (`strftime` `%Y`). -/
def pad4 (n : Nat) : String :=
  if n < 10 then "000" ++ toString n
  else if n < 100 then "00" ++ toString n
  else if n < 1000 then "0" ++ toString n
  else toString n

/-- `strftime("%Y:%m:%d")` (the slice-name fragments). -/
def fmtColons (d : PyDateTime) : String :=
  pad4 d.year ++ ":" ++ pad2 d.month ++ ":" ++ pad2 d.day

/-- `strftime("%Y-%m-%d %H:%M:%S")` (the override date strings). -/
def fmtFull (d : PyDateTime) : String :=
  pad4 d.year ++ "-" ++ pad2 d.month ++ "-" ++ pad2 d.day ++ " " ++
    pad2 d.hour ++ ":" ++ pad2 d.minute ++ ":" ++ pad2 d.second

/-- The `runtime_params` override block each sub-step carries. -/
structure RuntimeOverrides where
  start_date : String
  end_date : String
  output_dir : String
  deriving DecidableEq, Repr

/-- The `initial_conditions` override block of sub-steps after the first. -/
structure InitialConditions where
  location : String
  start_date : String
  end_date : String
  deriving DecidableEq, Repr

/-- Modelled from the spec: the step shape `RomsMarblTimeSplitter.split`
instantiates. The `Step` model it targets lives in a
`cstar/orchestration/models.py` newer than the copy under `src/` (which
lacks the `initial_conditions` field and the nested overrides the
splitter writes; transforms.py also imports `RomsMarblBlueprint`, absent
from the `src/` copy); per spec §4.8 each sub-step carries a unique name,
the chained `depends_on`, `start_date`/`end_date`/`output_dir` overrides
for its slice, and an `initial_conditions` override after the first
slice. The remaining original fields are copied through by
`step.model_dump()`. -/
structure SubStep where
  name : String
  application : String
  blueprint : String
  depends_on : List String
  runtime_overrides : RuntimeOverrides
  initial_conditions : Option InitialConditions
  deriving DecidableEq, Repr

/-- The generator loop of `RomsMarblTimeSplitter.split` (transforms.py
lines 129-166), threading the `depends_on` chain and the previous
sub-step's output directory. The result is the consumed generator: the
prefix of sub-steps yielded, plus the exception that terminated it, if
any. On every iteration after the first, `last_output_dir` is not `None`
and line 152 evaluates `last_output_dir / "roms.nc"` — but
`last_output_dir` is a `str` (assigned at line 166 from the
`.as_posix()` at line 131), and `str / str` raises `TypeError` before
the `initial_conditions` update (lines 154-158, unreachable) and before
the yield, so every run over two or more slices stops there. -/
def splitLoop (step : Step) (outputRoot : String) :
    List (PyDateTime × PyDateTime) → List String → Option String →
      List SubStep × Option PyExc
  | [], _, _ => ([], none)
  | (t0, t1) :: rest, depends_on, lastOutputDir =>
      let step_name := step.name ++ "_" ++ fmtColons t0 ++ "-" ++ fmtColons t1
      let output_dir := pathJoin outputRoot (pySlugify step_name)
      match lastOutputDir with
      | some _ =>
          ([], some (.typeError "unsupported operand type(s) for /: 'str' and 'str'"))
      | none =>
          let sub : SubStep :=
            { name := step_name,
              application := step.application,
              blueprint := step.blueprint,
              depends_on := depends_on,
              runtime_overrides :=
                { start_date := fmtFull t0, end_date := fmtFull t1,
                  output_dir := output_dir },
              initial_conditions := none }
          let tail := splitLoop step outputRoot rest [step_name] (some output_dir)
          (sub :: tail.1, tail.2)

/-- `RomsMarblTimeSplitter.split` (transforms.py lines 103-166), consumed
to exhaustion as a generator: the list of sub-steps it yields plus the
exception that stops it, if any (`ValueError` for an inverted range, the
`TypeError` of `splitLoop` past the first slice). The blueprint
deserialization is an environment input: its
`runtime_params.start_date`/`end_date`/`output_dir` are passed directly. -/
def RomsMarblTimeSplitter.split (step : Step) (start_date end_date : PyDateTime)
    (outputRoot : String) : List SubStep × Option PyExc :=
  if PyDateTime.le end_date start_date then
    ([], some (.valueError "end_date must be after start_date"))
  else
    match get_time_slices start_date end_date with
    | .error e => ([], some e)
    | .ok slices => splitLoop step outputRoot slices step.depends_on none

/-- A heap of Python `Step` objects: cell `i` is the object allocated
`i`-th, and a Python variable holding a `Step` is an index into it. A
cell holds the object's full mutable contents: pydantic's `frozen=True`
on some `Step` fields only blocks attribute reassignment (`name` is not
even frozen), and the override dicts are mutable in place regardless, so
overwriting a cell models every mutation a caller can make to a step or
to its override maps. -/
structure StepHeap where
  cells : List Step
  deriving DecidableEq, Repr

/-- Dereference a step object. -/
def StepHeap.read (h : StepHeap) (r : Nat) : Option Step := h.cells[r]?

/-- Mutate a step object in place. -/
def StepHeap.write (h : StepHeap) (r : Nat) (d : Step) : StepHeap :=
  { cells := h.cells.set r d }

/-- `copy.deepcopy` over a list of step references
(`WorkPlan._deep_copy_steps`, models.py lines 441-457): allocate one
fresh cell per referenced object, copying its contents, and collect the
fresh references. `none` marks a dangling reference, which cannot arise
for real Python objects. -/
def deepCopySteps (h : StepHeap) : List Nat → Option (StepHeap × List Nat)
  | [] => some (h, [])
  | r :: rs =>
      match h.read r with
      | none => none
      | some d =>
          match deepCopySteps { cells := h.cells ++ [d] } rs with
          | none => none
          | some (h2, refs2) => some (h2, h.cells.length :: refs2)

/-- The `WorkPlan` fields relevant to the deep-copy claim (models.py
lines 409-439), with `steps` held by reference as on the Python heap. -/
structure WorkPlanObj where
  name : String
  description : String
  steps : List Nat
  deriving DecidableEq, Repr

/-- `WorkPlan(...)` construction: the supplied `steps` pass through the
`_deep_copy_steps` field validator (mode `before`), so the stored
references are the fresh copies, never the caller's objects. -/
def WorkPlan.construct (h : StepHeap) (name description : String)
    (refs : List Nat) : Option (StepHeap × WorkPlanObj) :=
  match deepCopySteps h refs with
  | none => none
  | some (h2, refs2) =>
      some (h2, { name := name, description := description, steps := refs2 })

/-- The step contents a reader of the workplan observes. -/
def WorkPlanObj.stepsView (wp : WorkPlanObj) (h : StepHeap) : List (Option Step) :=
  wp.steps.map h.read

end CStar

namespace CStar

/-- Looking up the key just set. -/
theorem alSet_lookup_self {β : Type} (l : List (String × β)) (k : String) (v : β) :
    (alSet l k v).lookup k = some v := by
  induction l with
  | nil => simp [alSet, List.lookup]
  | cons hd tl ih =>
      obtain ⟨ka, va⟩ := hd
      by_cases h : ka = k
      · simp [alSet, h, List.lookup]
      · have hbeq : (k == ka) = false :=
          beq_eq_false_iff_ne.mpr (fun he => h he.symm)
        simp only [alSet, if_neg h, List.lookup, hbeq]
        exact ih

/-- Looking up a different key is unaffected by `alSet`. -/
theorem alSet_lookup_other {β : Type} (l : List (String × β)) (k k' : String)
    (v : β) (h : k' ≠ k) : (alSet l k v).lookup k' = l.lookup k' := by
  have hbeq : (k' == k) = false := beq_eq_false_iff_ne.mpr h
  induction l with
  | nil => simp [alSet, List.lookup, hbeq]
  | cons hd tl ih =>
      obtain ⟨ka, va⟩ := hd
      by_cases hh : ka = k
      · subst hh
        simp [alSet, List.lookup, hbeq]
      · simp only [alSet, if_neg hh, List.lookup]
        cases hbeq2 : (k' == ka)
        · simp only [hbeq2]
          exact ih
        · simp only [hbeq2]

/-- When every requested id is present, `filterResults` succeeds and the
final map sends ids in the request to their `results` entry and leaves
other keys to the accumulator. -/
theorem filterResults_ok (results : List (String × TaskStatus)) :
    ∀ (tids : List String) (acc : List (String × TaskStatus)),
      (∀ n ∈ tids, (results.lookup n).isSome) →
      ∃ r, SlurmLauncher.filterResults results tids acc = .ok r ∧
        ∀ k, r.lookup k = if k ∈ tids then results.lookup k else acc.lookup k := by
  intro tids
  induction tids with
  | nil =>
      intro acc _
      exact ⟨acc, rfl, fun k => by simp⟩
  | cons tid rest ih =>
      intro acc hall
      have htid : (results.lookup tid).isSome := hall tid (by simp)
      obtain ⟨st, hst⟩ := Option.isSome_iff_exists.mp htid
      obtain ⟨r, hr, hlook⟩ :=
        ih (alSet acc tid st) (fun n hn => hall n (by simp [hn]))
      refine ⟨r, ?_, ?_⟩
      · simpa [SlurmLauncher.filterResults, hst] using hr
      · intro k
        rcases List.instDecidableMemOfLawfulBEq k rest with hk | hk
        · rw [hlook k, if_neg hk]
          by_cases hkt : k = tid
          · subst hkt
            simp [alSet_lookup_self, hst]
          · simp [alSet_lookup_other _ _ _ _ hkt, hkt, hk]
        · rw [hlook k, if_pos hk]
          simp [hk]

/-- When some requested id is missing from `results`, `filterResults`
raises. -/
theorem filterResults_err (results : List (String × TaskStatus)) :
    ∀ (tids : List String) (acc : List (String × TaskStatus)),
      (∃ n ∈ tids, results.lookup n = none) →
      (SlurmLauncher.filterResults results tids acc).isOk = false := by
  intro tids
  induction tids with
  | nil => intro acc h; simp at h
  | cons tid rest ih =>
      intro acc ⟨n, hn, hnone⟩
      rcases List.mem_cons.mp hn with hhead | htail
      · subst hhead
        simp [SlurmLauncher.filterResults, hnone, Except.isOk, Except.toBool]
      · match hst : results.lookup tid with
        | none =>
            simp [SlurmLauncher.filterResults, hst, Except.isOk, Except.toBool]
        | some st =>
            simpa [SlurmLauncher.filterResults, hst] using
              ih (alSet acc tid st) ⟨n, htail, hnone⟩

/-- C7 (counterexample): the claim as stated is false. With backend
output naming only task `a`, requesting `["a", "b"]` raises
`KeyError("b")` instead of returning a map without `b`. -/
theorem C7_query_status_missing_name_raises :
    SlurmLauncher._query_status (some "jid1") "1,RUNNING,a" ["a", "b"] =
      .error (.keyError "b") := rfl

/-- C7 (amended): for a non-empty request whose names all appear in the
parsed backend status map, `_query_status` returns exactly that map
restricted to the requested names; a requested name absent from the
backend output raises a `KeyError` instead of being omitted. -/
theorem C7_query_status_restriction (jid : String) (hjid : pyStrip jid ≠ "")
    (stdout : String) (names : List String) (hne : names ≠ [])
    (results : List (String × TaskStatus))
    (hres : SlurmLauncher.buildResults (parseSacct stdout) [] = .ok results) :
    ((∀ n ∈ names, (results.lookup n).isSome) →
      ∃ r, SlurmLauncher._query_status (some jid) stdout names = .ok r ∧
        ∀ k, r.lookup k = if k ∈ names then results.lookup k else none) ∧
    ((∃ n ∈ names, results.lookup n = none) →
      (SlurmLauncher._query_status (some jid) stdout names).isOk = false) := by
  have hq : SlurmLauncher._query_status (some jid) stdout names =
      SlurmLauncher.filterResults results names [] := by
    simp [SlurmLauncher._query_status, SlurmLauncher._retrieve_status, hjid, hres, hne]
  constructor
  · intro hall
    obtain ⟨r, hr, hlook⟩ := filterResults_ok results names [] hall
    refine ⟨r, hq ▸ hr, fun k => ?_⟩
    rw [hlook k]
    by_cases hk : k ∈ names <;> simp [hk, List.lookup]
  · intro hmiss
    rw [hq]
    exact filterResults_err results names [] hmiss

/-- Witness for C7's amended statement at a concrete input: both names in
the backend output, request restricted to `a`. -/
theorem C7_query_status_restriction_witness :
    ∃ r, SlurmLauncher._query_status (some "jid1") "1,RUNNING,a\n1,COMPLETED,b"
        ["a"] = .ok r ∧
      ∀ k, r.lookup k =
        if k ∈ ["a"] then
          ([("a", TaskStatus.Active), ("b", TaskStatus.Done)] :
            List (String × TaskStatus)).lookup k
        else none :=
  (C7_query_status_restriction "jid1" (by decide) "1,RUNNING,a\n1,COMPLETED,b"
      ["a"] (by decide) [("a", .Active), ("b", .Done)] rfl).1 (by decide)

/-- The five raw states with an explicit mapping in `sacct_status_map`. -/
def slurmMappedKeys : List String :=
  ["PENDING", "RUNNING", "COMPLETED", "CANCELLED", "FAILED"]

/-- C6: `map_status` maps the five known raw states case-insensitively,
any other non-empty raw string to `Unknown`, rejects empty/whitespace-only
input, and `is_terminated` holds for a mapped status exactly on
`{Done, Aborted, Failed}`. -/
theorem C6_slurm_status_mapping :
    (∀ raw : String, pyStrip raw = "" → (SlurmJobStatus.map_status raw).isOk = false) ∧
    (∀ raw : String, pyStrip raw ≠ "" → pyUpper raw = "PENDING" →
      SlurmJobStatus.map_status raw = .ok .Waiting) ∧
    (∀ raw : String, pyStrip raw ≠ "" → pyUpper raw = "RUNNING" →
      SlurmJobStatus.map_status raw = .ok .Active) ∧
    (∀ raw : String, pyStrip raw ≠ "" → pyUpper raw = "COMPLETED" →
      SlurmJobStatus.map_status raw = .ok .Done) ∧
    (∀ raw : String, pyStrip raw ≠ "" → pyUpper raw = "CANCELLED" →
      SlurmJobStatus.map_status raw = .ok .Aborted) ∧
    (∀ raw : String, pyStrip raw ≠ "" → pyUpper raw = "FAILED" →
      SlurmJobStatus.map_status raw = .ok .Failed) ∧
    (∀ raw : String, pyStrip raw ≠ "" → pyUpper raw ∉ slurmMappedKeys →
      SlurmJobStatus.map_status raw = .ok .Unknown) ∧
    (∀ s : TaskStatus, SlurmJobStatus.is_terminated s = true ↔
      (s = .Done ∨ s = .Aborted ∨ s = .Failed)) := by
  refine ⟨?_, ?_, ?_, ?_, ?_, ?_, ?_, ?_⟩
  · intro raw h; simp [SlurmJobStatus.map_status, h, Except.isOk, Except.toBool]
  · intro raw h hk; simp [SlurmJobStatus.map_status, h, hk]
  · intro raw h hk; simp [SlurmJobStatus.map_status, h, hk]
  · intro raw h hk; simp [SlurmJobStatus.map_status, h, hk]
  · intro raw h hk; simp [SlurmJobStatus.map_status, h, hk]
  · intro raw h hk; simp [SlurmJobStatus.map_status, h, hk]
  · intro raw h hk
    simp only [slurmMappedKeys, List.mem_cons, List.not_mem_nil, or_false, not_or] at hk
    obtain ⟨h1, h2, h3, h4, h5⟩ := hk
    simp [SlurmJobStatus.map_status, h, h1, h2, h3, h4, h5]
  · intro s; cases s <;> simp [SlurmJobStatus.is_terminated]

/-- Witness for C6 at concrete inputs: the empty-input rejection, a
case-insensitive hit for each mapped key, an unmapped raw state, and a
terminal status. -/
theorem C6_slurm_status_mapping_witness :
    (SlurmJobStatus.map_status "  ").isOk = false ∧
    SlurmJobStatus.map_status "pending" = .ok .Waiting ∧
    SlurmJobStatus.map_status "Running" = .ok .Active ∧
    SlurmJobStatus.map_status "completed" = .ok .Done ∧
    SlurmJobStatus.map_status "CancelLed" = .ok .Aborted ∧
    SlurmJobStatus.map_status "failed" = .ok .Failed ∧
    SlurmJobStatus.map_status "NODE_FAIL" = .ok .Unknown ∧
    (SlurmJobStatus.is_terminated .Done = true ↔
      (TaskStatus.Done = .Done ∨ TaskStatus.Done = .Aborted ∨
        TaskStatus.Done = .Failed)) := by
  refine ⟨?_, ?_, ?_, ?_, ?_, ?_, ?_, ?_⟩
  · exact C6_slurm_status_mapping.1 "  " (by decide)
  · exact C6_slurm_status_mapping.2.1 "pending" (by decide) (by decide)
  · exact C6_slurm_status_mapping.2.2.1 "Running" (by decide) (by decide)
  · exact C6_slurm_status_mapping.2.2.2.1 "completed" (by decide) (by decide)
  · exact C6_slurm_status_mapping.2.2.2.2.1 "CancelLed" (by decide) (by decide)
  · exact C6_slurm_status_mapping.2.2.2.2.2.1 "failed" (by decide) (by decide)
  · exact C6_slurm_status_mapping.2.2.2.2.2.2.1 "NODE_FAIL" (by decide) (by decide)
  · exact C6_slurm_status_mapping.2.2.2.2.2.2.2 .Done

/-- C5: evaluating the code at the failing input. A `FailTask` built from
a step source with an error message has `status = Waiting` immediately
after construction, not `Failed`: `Task.__init__` writes the instance
attribute `Waiting` and the class-level `Field(default=Failed)` annotation
never reaches instances. -/
theorem C5_failtask_constructed_waiting :
    (FailTask.init []
        (.step { name := "s1", application := "sleep", blueprint := "b.yaml" })
        (some "boom") 0).map Task.status = .ok .Waiting ∧
    TaskStatus.Waiting ≠ TaskStatus.Failed :=
  ⟨rfl, by decide⟩

/-- C2: evaluating the code at the failing input. A task whose OS process
has exited with return code 0, but whose `Popen.returncode` was never
populated by a prior `poll`/`wait`, is returned unchanged by `query()`:
the guard `self.process.returncode is None` short-circuits before any
poll, so the exit is never observed and the status stays `Active`. -/
theorem C2_query_ignores_exited_process :
    Task.query
        { source := .step { name := "s1", application := "sleep", blueprint := "b.yaml" },
          status := .Active,
          process := some { exited := true, exitCode := 0, returncode := none },
          bagPid := some 7, bagCreateTime := some 100, task_id := 0 } =
      ({ source := .step { name := "s1", application := "sleep", blueprint := "b.yaml" },
         status := .Active,
         process := some { exited := true, exitCode := 0, returncode := none },
         bagPid := some 7, bagCreateTime := some 100, task_id := 0 }, .Active) ∧
    TaskStatus.Active ≠ TaskStatus.Done :=
  ⟨rfl, by decide⟩

/-- C3: evaluating the code at the failing input. Cancelling a task whose
pid 7 now belongs to a live process with a different creation time
(200 vs the recorded 100) sets `status = Done` but then — the recycled
branch has no `return` — still kills the recycled process and both of its
descendants: the signalled pid list is `[8, 9, 7]`, not `[]`. -/
theorem C3_cancel_kills_recycled_process :
    (Task.cancel [{ pid := 7, createTime := 200, children := [8, 9] }]
        { source := .step { name := "s1", application := "sleep", blueprint := "b.yaml" },
          status := .Active,
          process := some { exited := true, exitCode := 0, returncode := none },
          bagPid := some 7, bagCreateTime := some 100, task_id := 0 }).2 = [8, 9, 7] ∧
    (Task.cancel [{ pid := 7, createTime := 200, children := [8, 9] }]
        { source := .step { name := "s1", application := "sleep", blueprint := "b.yaml" },
          status := .Active,
          process := some { exited := true, exitCode := 0, returncode := none },
          bagPid := some 7, bagCreateTime := some 100, task_id := 0 }).1.status = .Done :=
  ⟨rfl, rfl⟩

/-- A one-step workplan used as a concrete input by several scenarios. -/
def sampleStep : Step := { name := "s1", application := "sleep", blueprint := "b.yaml" }

/-- The workplan holding `sampleStep`. -/
def sampleWorkplan : Workplan := { name := "w1", steps := [sampleStep] }

/-- A fresh orchestrator over `sampleWorkplan` with an empty launcher. -/
def sampleOrch : Orchestrator :=
  { planner := GraphPlanner.initFromPlan sampleWorkplan, launcher := {} }

/-- A command adaptation that succeeds (`sleep 2`). -/
def sampleAdapt : Step → Except PyExc (List String) := fun _ => .ok ["sleep", "2"]

/-- A spawn that succeeds with pid 42, creation time 100, still running. -/
def sampleSpawn : Step → SpawnOutcome := fun _ => .ok 42 100 false 0

/-- A fixed uuid supply. -/
def sampleFresh : Step → Nat := fun _ => 0

/-- C1: evaluating the code at the failing input. For a step with no task
record whose launch fully succeeds (the launched task enters `Active` and
is recorded in `task_lookup`), `run_step` nevertheless raises
`RuntimeError("Starting task `s1` failed.")`: `_start` never assigns its
local `task` on the success path of the `try`, so the `if not task` check
always fires there. -/
theorem C1_run_step_raises_despite_active_launch :
    (Orchestrator.run_step sampleOrch sampleAdapt sampleSpawn sampleFresh sampleStep).2 =
      .error (.runtimeError "Starting task `s1` failed.") ∧
    ((Orchestrator.run_step sampleOrch sampleAdapt sampleSpawn sampleFresh
        sampleStep).1.task_lookup.lookup "s1").map Task.status = some .Active :=
  ⟨rfl, rfl⟩

/-- C4: evaluating the code at the failing input. After `remove` has been
called for every step of the plan (the only step `s1`; the node is indeed
gone from the graph), `GraphPlanner.__next__` still returns that step
instead of `none`: it reads `workplan.steps[0]`, which removals never
touch. -/
theorem C4_graphplanner_next_after_all_removed :
    ((GraphPlanner.initFromPlan sampleWorkplan).remove sampleStep).map
        GraphPlanner.next = .ok (some sampleStep) ∧
    ((GraphPlanner.initFromPlan sampleWorkplan).remove sampleStep).map
        (fun p => p.graph.hasNode "s1") = .ok false :=
  ⟨rfl, rfl⟩

/-- Stepping to the next month advances the month counter by one. -/
theorem monthsIdx_monthSucc (d : PyDateTime) :
    monthsIdx (monthSucc d) = monthsIdx d + 1 := by
  unfold monthSucc monthsIdx
  split <;> simp_all <;> omega

/-- The next month start is a month start whenever the month is in range. -/
theorem isMonthStart_monthSucc (d : PyDateTime) (h : d.month ≤ 12) :
    (monthSucc d).isMonthStart := by
  unfold monthSucc
  split
  · refine ⟨Nat.le_refl 1, ?_, rfl, rfl, rfl, rfl⟩
    show (1 : Nat) ≤ 12
    decide
  · next hm =>
      refine ⟨Nat.succ_le_succ (Nat.zero_le _), ?_, rfl, rfl, rfl, rfl⟩
      show d.month + 1 ≤ 12
      omega

/-- A month start is a valid datetime. -/
theorem valid_of_isMonthStart (d : PyDateTime) (h : d.isMonthStart) : d.Valid := by
  obtain ⟨h1, h2, h3, h4, h5, h6⟩ := h
  exact ⟨h1, h2, by omega, by omega, by omega, by omega, by omega⟩

/-- A strictly later month counter forces a strictly larger key, for a
valid datetime against a month start. -/
theorem key_lt_of_monthsIdx_lt (a b : PyDateTime) (ha : a.Valid)
    (hb : b.isMonthStart) (h : monthsIdx a < monthsIdx b) : a.key < b.key := by
  obtain ⟨a1, a2, a3, a4, a5, a6, a7⟩ := ha
  obtain ⟨b1, b2, b3, b4, b5, b6⟩ := hb
  unfold PyDateTime.key monthsIdx at *
  omega

/-- The start of a date's month is no later than the date. -/
theorem key_monthStart_le (d : PyDateTime) (hd : d.Valid) :
    (monthStart d).key ≤ d.key := by
  obtain ⟨h1, h2, h3, h4, h5, h6, h7⟩ := hd
  unfold monthStart PyDateTime.key
  simp only
  omega

/-- The comparison key is injective on valid datetimes. -/
theorem key_inj (a b : PyDateTime) (ha : a.Valid) (hb : b.Valid)
    (h : a.key = b.key) : a = b := by
  obtain ⟨y1, m1, d1, hh1, mi1, s1⟩ := a
  obtain ⟨y2, m2, d2, hh2, mi2, s2⟩ := b
  obtain ⟨a1, a2, a3, a4, a5, a6, a7⟩ := ha
  obtain ⟨b1, b2, b3, b4, b5, b6, b7⟩ := hb
  unfold PyDateTime.key at h
  simp only at *
  simp only [PyDateTime.mk.injEq]
  omega

/-- Every slice the loop emits ends at the month start after its start. -/
theorem slicesLoop_mem_snd (endD : PyDateTime) :
    ∀ (fuel : Nat) (cur : PyDateTime) (p : PyDateTime × PyDateTime),
      p ∈ slicesLoop endD fuel cur → p.2 = monthSucc p.1 := by
  intro fuel
  induction fuel with
  | zero => intro cur p hp; simp [slicesLoop] at hp
  | succ n ih =>
      intro cur p hp
      unfold slicesLoop at hp
      split at hp
      · rcases List.mem_cons.mp hp with h | h
        · subst h; rfl
        · exact ih _ _ h
      · simp at hp

/-- Every slice the loop emits starts on a month start, when the cursor
does. -/
theorem slicesLoop_mem_fst (endD : PyDateTime) :
    ∀ (fuel : Nat) (cur : PyDateTime), cur.isMonthStart →
      ∀ p ∈ slicesLoop endD fuel cur, p.1.isMonthStart := by
  intro fuel
  induction fuel with
  | zero => intro cur _ p hp; simp [slicesLoop] at hp
  | succ n ih =>
      intro cur hcur p hp
      unfold slicesLoop at hp
      split at hp
      · rcases List.mem_cons.mp hp with h | h
        · subst h; exact hcur
        · exact ih _ (isMonthStart_monthSucc cur hcur.2.1) p h
      · simp at hp

/-- With enough fuel, the loop's last slice ends at or after the end
date. -/
theorem slicesLoop_last_ge (endD : PyDateTime) (he : endD.Valid) :
    ∀ (fuel : Nat) (cur : PyDateTime), cur.isMonthStart →
      monthsIdx endD < monthsIdx cur + fuel →
      ∀ p, (slicesLoop endD fuel cur).getLast? = some p → PyDateTime.le endD p.2 := by
  intro fuel
  induction fuel with
  | zero => intro cur _ _ p hp; simp [slicesLoop] at hp
  | succ n ih =>
      intro cur hcur hfuel p hp
      unfold slicesLoop at hp
      split at hp
      · next hg =>
          match hrest : slicesLoop endD n (monthSucc cur) with
          | [] =>
              rw [hrest] at hp
              simp only [List.getLast?_singleton, Option.some.injEq] at hp
              subst hp
              show endD.key ≤ (monthSucc cur).key
              have hms : (monthSucc cur).isMonthStart :=
                isMonthStart_monthSucc cur hcur.2.1
              cases n with
              | zero =>
                  have : endD.key < (monthSucc cur).key := by
                    refine key_lt_of_monthsIdx_lt endD (monthSucc cur) he hms ?_
                    rw [monthsIdx_monthSucc]
                    omega
                  omega
              | succ m =>
                  unfold slicesLoop at hrest
                  split at hrest
                  · exact absurd hrest (by simp)
                  · next hng => omega
          | q :: qs =>
              rw [hrest] at hp
              rw [List.getLast?_cons_cons] at hp
              refine ih (monthSucc cur) (isMonthStart_monthSucc cur hcur.2.1)
                (by rw [monthsIdx_monthSucc]; omega) p ?_
              rw [hrest]
              exact hp
      · simp at hp

/-- One extra unit of fuel does not change the loop's output once the
fuel covers the months up to the end date: the loop always stops by its
guard, so the fueled embedding agrees with the unbounded source loop. -/
theorem slicesLoop_fuel_stable (endD : PyDateTime) (he : endD.Valid) :
    ∀ (fuel : Nat) (cur : PyDateTime), cur.isMonthStart →
      monthsIdx endD < monthsIdx cur + fuel →
      slicesLoop endD (fuel + 1) cur = slicesLoop endD fuel cur := by
  intro fuel
  induction fuel with
  | zero =>
      intro cur hcur hf
      show (if PyDateTime.lt cur endD then _ else []) = []
      rw [if_neg]
      intro hg
      have : endD.key < cur.key :=
        key_lt_of_monthsIdx_lt endD cur he hcur (by omega)
      exact absurd hg (by omega)
  | succ n ih =>
      intro cur hcur hf
      show (if PyDateTime.lt cur endD then _ else []) =
        (if PyDateTime.lt cur endD then _ else [])
      by_cases hg : PyDateTime.lt cur endD
      · rw [if_pos hg, if_pos hg,
          ih (monthSucc cur) (isMonthStart_monthSucc cur hcur.2.1)
            (by rw [monthsIdx_monthSucc]; omega)]
      · rw [if_neg hg, if_neg hg]

/-- `modifyLast` preserves the length. -/
theorem modifyLast_length {α : Type} (f : α → α) (l : List α) :
    (modifyLast f l).length = l.length := by
  induction l with
  | nil => rfl
  | cons x rest ih =>
      cases rest with
      | nil => rfl
      | cons y rest' => simpa [modifyLast] using ih

/-- `modifyLast` leaves every element before the last unchanged. -/
theorem modifyLast_getElem {α : Type} (f : α → α) (l : List α) (i : Nat)
    (h : i + 1 < l.length) (h' : i < (modifyLast f l).length)
    (h'' : i < l.length) : (modifyLast f l)[i] = l[i] := by
  induction l generalizing i with
  | nil => simp at h
  | cons x rest ih =>
      cases rest with
      | nil => simp at h
      | cons y rest' =>
          cases i with
          | zero => rfl
          | succ j =>
              have hj : j + 1 < (y :: rest').length := by
                simpa using h
              have hj2 : j < (y :: rest').length := by omega
              have hj' : j < (modifyLast f (y :: rest')).length := by
                rw [modifyLast_length]; omega
              show (x :: modifyLast f (y :: rest'))[j + 1] = (y :: rest')[j]
              rw [List.getElem_cons_succ]
              exact ih j hj hj' hj2

/-- `modifyLast` applies the function to the last element. -/
theorem modifyLast_getLast? {α : Type} (f : α → α) (l : List α) (x : α)
    (h : l.getLast? = some x) : (modifyLast f l).getLast? = some (f x) := by
  induction l with
  | nil => simp at h
  | cons a rest ih =>
      cases rest with
      | nil =>
          simp only [List.getLast?_singleton, Option.some.injEq] at h
          subst h
          rfl
      | cons b rest' =>
          rw [List.getLast?_cons_cons] at h
          have htail := ih h
          show (a :: modifyLast f (b :: rest')).getLast? = some (f x)
          match hm : modifyLast f (b :: rest') with
          | [] => exact absurd hm (by cases rest' <;> simp [modifyLast])
          | c :: cs =>
              rw [List.getLast?_cons_cons, ← hm]
              exact htail

/-- C9: evaluating the code at the failing input. For the spec's own
example range 2024-01-15 .. 2024-03-10 the slicer produces three monthly
slices, so the claim demands three chained sub-steps — but consuming the
splitter yields only the first sub-step and then raises `TypeError`:
`output_dir` is a `str` (`as_posix()`, transforms.py line 131),
`last_output_dir` is assigned that `str` (line 166), and line 152
evaluates `last_output_dir / "roms.nc"` — a `str / str` — before every
yield after the first. The rejection of an inverted range does hold
(last conjunct). -/
theorem C9_splitter_crashes_after_first_substep :
    (get_time_slices ⟨2024, 1, 15, 0, 0, 0⟩ ⟨2024, 3, 10, 0, 0, 0⟩).map
        List.length = .ok 3 ∧
    (RomsMarblTimeSplitter.split
        { name := "s1", application := "roms_marbl", blueprint := "b.yaml" }
        ⟨2024, 1, 15, 0, 0, 0⟩ ⟨2024, 3, 10, 0, 0, 0⟩ "out").1.length = 1 ∧
    (RomsMarblTimeSplitter.split
        { name := "s1", application := "roms_marbl", blueprint := "b.yaml" }
        ⟨2024, 1, 15, 0, 0, 0⟩ ⟨2024, 3, 10, 0, 0, 0⟩ "out").2 =
      some (.typeError "unsupported operand type(s) for /: 'str' and 'str'") ∧
    RomsMarblTimeSplitter.split
        { name := "s1", application := "roms_marbl", blueprint := "b.yaml" }
        ⟨2024, 3, 10, 0, 0, 0⟩ ⟨2024, 1, 15, 0, 0, 0⟩ "out" =
      ([], some (.valueError "end_date must be after start_date")) :=
  ⟨rfl, rfl, rfl, rfl⟩

/-- C8: evaluating the code at the failing input. After a successful
`remove` of step `s1`, a traversal of the `GraphPlanner`
(`__iter__`, which iterates `workplan.steps`) still yields `s1`; the
second half of the claim does hold: removing the same step twice raises
(`NetworkXError` from `remove_node`). -/
theorem C8_graphplanner_iter_still_yields_removed_step :
    ((GraphPlanner.initFromPlan sampleWorkplan).remove sampleStep).map
        GraphPlanner.iter = .ok [sampleStep] ∧
    (((GraphPlanner.initFromPlan sampleWorkplan).remove sampleStep).bind
        (fun p => p.remove sampleStep)) =
      .error (.networkxError "The node s1 is not in the digraph.") :=
  ⟨rfl, rfl⟩

/-- `deepCopySteps` allocates only fresh cells: the result heap extends
the input heap, every returned reference is fresh, and dereferencing the
copies reproduces exactly the original objects' contents. -/
theorem deepCopySteps_spec :
    ∀ (refs : List Nat) (h h2 : StepHeap) (refs2 : List Nat),
      (∀ r ∈ refs, r < h.cells.length) →
      deepCopySteps h refs = some (h2, refs2) →
      (∃ extra, h2.cells = h.cells ++ extra) ∧
      (∀ r ∈ refs2, h.cells.length ≤ r ∧ r < h2.cells.length) ∧
      refs2.map h2.read = refs.map h.read := by
  intro refs
  induction refs with
  | nil =>
      intro h h2 refs2 _ hc
      simp only [deepCopySteps, Option.some.injEq, Prod.mk.injEq] at hc
      obtain ⟨h1, h2'⟩ := hc
      subst h1
      subst h2'
      exact ⟨⟨[], by simp⟩, by simp, by simp⟩
  | cons r rs ih =>
      intro h h2 refs2 hin hc
      unfold deepCopySteps at hc
      split at hc
      · exact absurd hc (by simp)
      · next d hd =>
          split at hc
          · exact absurd hc (by simp)
          · next hmid refsmid hrec =>
              simp only [Option.some.injEq, Prod.mk.injEq] at hc
              obtain ⟨hheq, hreq⟩ := hc
              subst hheq
              subst hreq
              have hin' : ∀ x ∈ rs, x < ({ cells := h.cells ++ [d] } :
                  StepHeap).cells.length := by
                intro x hx
                have := hin x (by simp [hx])
                simp only [List.length_append, List.length_cons,
                  List.length_nil]
                omega
              obtain ⟨⟨extra, hext⟩, hbounds, hmap⟩ :=
                ih { cells := h.cells ++ [d] } hmid refsmid hin' hrec
              refine ⟨⟨d :: extra, by simpa using hext⟩, ?_, ?_⟩
              · intro x hx
                rcases List.mem_cons.mp hx with hx1 | hx1
                · subst hx1
                  refine ⟨Nat.le_refl _, ?_⟩
                  rw [hext]
                  simp only [List.length_append, List.length_cons,
                    List.length_nil]
                  omega
                · have := hbounds x hx1
                  simp only [List.length_append, List.length_cons,
                    List.length_nil] at this
                  omega
              · simp only [List.map_cons]
                have hhead : hmid.read h.cells.length = h.read r := by
                  unfold StepHeap.read at hd ⊢
                  rw [hext, hd]
                  have hassoc : ({ cells := h.cells ++ [d] } :
                      StepHeap).cells ++ extra = h.cells ++ ([d] ++ extra) := by
                    simp
                  rw [hassoc,
                    List.getElem?_append_right (Nat.le_refl h.cells.length)]
                  simp
                have htail : List.map hmid.read refsmid = List.map h.read rs := by
                  rw [hmap]
                  refine List.map_congr_left ?_
                  intro x hx
                  show StepHeap.read _ x = h.read x
                  unfold StepHeap.read
                  exact List.getElem?_append_left (hin x (by simp [hx]))
                rw [hhead, htail]

/-- C10: constructing a `WorkPlan` deep-copies the supplied steps — after
construction, any mutation of a pre-existing step object (covering the
caller's original `Step`s and their override maps, which live inside the
cells) leaves the workplan's observable steps unchanged, and those steps
read back exactly the contents the originals had at construction time. -/
theorem C10_workplan_deep_copies_steps (h : StepHeap) (plName plDesc : String)
    (refs : List Nat) (h2 : StepHeap) (wp : WorkPlanObj)
    (hvalid : ∀ r ∈ refs, r < h.cells.length)
    (hc : WorkPlan.construct h plName plDesc refs = some (h2, wp))
    (r : Nat) (hr : r < h.cells.length) (d : Step) :
    wp.stepsView (h2.write r d) = wp.stepsView h2 ∧
    wp.stepsView h2 = refs.map h.read := by
  unfold WorkPlan.construct at hc
  split at hc
  · exact absurd hc (by simp)
  · next hmid refsmid hdc =>
      simp only [Option.some.injEq, Prod.mk.injEq] at hc
      obtain ⟨hheq, hwpeq⟩ := hc
      subst hheq
      subst hwpeq
      obtain ⟨⟨extra, hext⟩, hbounds, hmap⟩ :=
        deepCopySteps_spec refs h hmid refsmid hvalid hdc
      constructor
      · unfold WorkPlanObj.stepsView
        refine List.map_congr_left ?_
        intro x hx
        have hb := hbounds x hx
        show StepHeap.read _ x = StepHeap.read _ x
        unfold StepHeap.read StepHeap.write
        exact List.getElem?_set_ne (by omega)
      · exact hmap

/-- Witness for C10 at a concrete input: a one-step heap, the workplan
built from it, and an in-place mutation of the original step. -/
theorem C10_workplan_deep_copies_steps_witness :
    WorkPlanObj.stepsView { name := "w1", description := "d", steps := [1] }
        (StepHeap.write
          ⟨[{ name := "s1", application := "sleep", blueprint := "b.yaml" },
            { name := "s1", application := "sleep", blueprint := "b.yaml" }]⟩
          0 { name := "mutated", application := "sleep", blueprint := "b.yaml" }) =
      WorkPlanObj.stepsView { name := "w1", description := "d", steps := [1] }
        ⟨[{ name := "s1", application := "sleep", blueprint := "b.yaml" },
          { name := "s1", application := "sleep", blueprint := "b.yaml" }]⟩ ∧
    WorkPlanObj.stepsView { name := "w1", description := "d", steps := [1] }
        ⟨[{ name := "s1", application := "sleep", blueprint := "b.yaml" },
          { name := "s1", application := "sleep", blueprint := "b.yaml" }]⟩ =
      [0].map (StepHeap.read
        ⟨[{ name := "s1", application := "sleep", blueprint := "b.yaml" }]⟩) :=
  C10_workplan_deep_copies_steps
    ⟨[{ name := "s1", application := "sleep", blueprint := "b.yaml" }]⟩
    "w1" "d" [0]
    ⟨[{ name := "s1", application := "sleep", blueprint := "b.yaml" },
      { name := "s1", application := "sleep", blueprint := "b.yaml" }]⟩
    { name := "w1", description := "d", steps := [1] }
    (by decide) rfl 0 (by decide)
    { name := "mutated", application := "sleep", blueprint := "b.yaml" }

end CStar
